import Mathlib

set_option maxRecDepth 4000

/-!
Verification development for a 2D geometry and spatial-indexing kernel
(vector/point algebra, lazy-cached shape primitives, uniform spatial hash).

Conventions of the embedding:
* JavaScript `number` is modelled as an idealized real (`ℝ`) wherever the
  behaviour under scrutiny is real arithmetic; the spatial hash, whose claims
  are about integer cell arithmetic, is modelled over `ℚ` so that its
  operations are fully computable.  The Vector/Point pair of the math package,
  whose claims explicitly concern non-finite inputs, is modelled over an
  extended number type `JsNum` with `NaN` and `±Infinity` values.
* Mutating methods become state-passing functions; methods that `throw`
  return the pre-state together with a flag, or an `Except`.
* The shared dirty-flag/lazy-refresh base class becomes the generic
  `Lazy` state wrapper below.
-/

namespace SpatialHash

/-- JS `ToInt32`: wrap an integer into the signed 32-bit range. -/
def toInt32 (n : ℤ) : ℤ := (n + 2147483648) % 4294967296 - 2147483648

/-- Two's-complement bit pattern of an integer, as a natural number below `2^32`. -/
def bits32 (n : ℤ) : ℕ := (n % 4294967296).toNat

/-- `getCellKey(x, y) = (x << 16) ^ (y & 0xffff)` on JS 32-bit integers:
shift the x cell coordinate into the high bits, mask the y coordinate to its
low 16 bits, and XOR the two patterns; the result is reinterpreted as a
signed 32-bit integer. -/
def getCellKey (x y : ℤ) : ℤ :=
  let sh : ℤ := toInt32 (toInt32 x * 65536)
  let lo : ℕ := ((toInt32 y) % 65536).toNat
  toInt32 (Int.ofNat (Nat.xor (bits32 sh) lo))

/-- The mutable state of a `SpatialHash<T>`: the fixed cell size, the grid
map from cell key to bucket (`none` when the key is absent from the `Map`),
and the reverse item-to-key index (the `WeakMap`). -/
structure State (T : Type) where
  cellSize : ℚ
  grid : ℤ → Option (List T)
  reverse : T → Option ℤ

/-- A freshly constructed `new SpatialHash(cellSize)`: empty grid, empty reverse map. -/
def init (T : Type) (cellSize : ℚ) : State T :=
  { cellSize := cellSize, grid := fun _ => none, reverse := fun _ => none }

/-- `hash(x, y)`: floor-divide both coordinates by the cell size and pack them.
(`Rat.floor` is used so the definition evaluates; it agrees with `Int.floor`.) -/
def hash {T : Type} (s : State T) (x y : ℚ) : ℤ :=
  getCellKey (Rat.floor (x / s.cellSize)) (Rat.floor (y / s.cellSize))

/-- `insert(item, x, y)`: append the item to the bucket of its cell
(creating the bucket when absent) and record its key in the reverse index. -/
def insert {T : Type} [DecidableEq T] (s : State T) (it : T) (x y : ℚ) : State T :=
  { s with
    grid := fun k =>
      if k = hash s x y then some (((s.grid (hash s x y)).getD []) ++ [it]) else s.grid k
    reverse := fun j => if j = it then some (hash s x y) else s.reverse j }

theorem insert_grid {T : Type} [DecidableEq T] (s : State T) (it : T) (x y : ℚ) (k : ℤ) :
    (insert s it x y).grid k
      = if k = hash s x y then some (((s.grid (hash s x y)).getD []) ++ [it])
        else s.grid k := rfl

/-- `remove(item)`.  Faithful to the source, including its falsy-key guard:
`const key = this.reverse.get(item); if (!key) return;` returns early both
when the item is untracked and when its cell key is the number `0`.  When the
bucket exists, the first occurrence of the item is spliced out, the bucket is
deleted if it became empty, and the reverse entry is dropped (the reverse
entry is dropped even when the item was not found in the bucket, since
`reverse.delete` sits outside the index check). -/
def remove {T : Type} [DecidableEq T] (s : State T) (it : T) : State T :=
  match s.reverse it with
  | none => s
  | some key =>
    if key = 0 then s
    else
      match s.grid key with
      | none => s
      | some cell =>
        let s1 : State T :=
          if it ∈ cell then
            let cell1 := cell.erase it
            { s with grid := fun k =>
                if k = key then (if cell1 = [] then none else some cell1) else s.grid k }
          else s
        { s1 with reverse := fun j => if j = it then none else s1.reverse j }

/-- `update(item, x, y)`: no-op when the stored key equals the new one
(JS `oldKey === newKey` is false when `oldKey` is `undefined`), otherwise
remove then reinsert. -/
def update {T : Type} [DecidableEq T] (s : State T) (it : T) (x y : ℚ) : State T :=
  let newKey := hash s x y
  if s.reverse it = some newKey then s
  else insert (remove s it) it x y

/-- Inclusive integer range `[lo, hi]` as a list (the `for` loops of `query`). -/
def intRange (lo hi : ℤ) : List ℤ :=
  (List.range (hi + 1 - lo).toNat).map (fun (i : ℕ) => lo + (i : ℤ))

/-- `query(x, y, radius)`: concatenate the buckets of every cell overlapping
the bounding square `[x - r, x + r] × [y - r, y + r]`, scanning rows (`cy`)
in the outer loop and columns (`cx`) in the inner loop. -/
def query {T : Type} (s : State T) (x y radius : ℚ) : List T :=
  let minX := Rat.floor ((x - radius) / s.cellSize)
  let maxX := Rat.floor ((x + radius) / s.cellSize)
  let minY := Rat.floor ((y - radius) / s.cellSize)
  let maxY := Rat.floor ((y + radius) / s.cellSize)
  (intRange minY maxY).flatMap (fun cy =>
    (intRange minX maxX).flatMap (fun cx =>
      ((s.grid (getCellKey cx cy)).getD [])))

/-- Insert a batch of (item, x, y) triples in order. -/
def insertAll {T : Type} [DecidableEq T] (s : State T) (l : List (T × ℚ × ℚ)) : State T :=
  l.foldl (fun acc e => insert acc e.1 e.2.1 e.2.2) s

theorem insert_cellSize {T : Type} [DecidableEq T] (s : State T) (it : T) (x y : ℚ) :
    (insert s it x y).cellSize = s.cellSize := rfl

theorem insertAll_cellSize {T : Type} [DecidableEq T] (l : List (T × ℚ × ℚ)) (s : State T) :
    (insertAll s l).cellSize = s.cellSize := by
  induction l generalizing s with
  | nil => rfl
  | cons e tl ih => simpa [insertAll] using ih (insert s e.1 e.2.1 e.2.2)

/-- Inserting never removes: bucket membership is preserved by `insert`. -/
theorem mem_bucket_insert {T : Type} [DecidableEq T] (s : State T) (it j : T)
    (k : ℤ) (x y : ℚ) (h : it ∈ (s.grid k).getD []) :
    it ∈ ((insert s j x y).grid k).getD [] := by
  rw [insert_grid]
  by_cases hk : k = hash s x y
  · rw [if_pos hk, Option.getD_some]
    rw [hk] at h
    exact List.mem_append_left _ h
  · rw [if_neg hk]
    exact h

/-- Bucket membership at a fixed key survives any batch of later inserts. -/
theorem mem_bucket_insertAll_of_mem {T : Type} [DecidableEq T]
    (tl : List (T × ℚ × ℚ)) (s0 : State T) (it : T) (k : ℤ)
    (h : it ∈ (s0.grid k).getD []) :
    it ∈ ((insertAll s0 tl).grid k).getD [] := by
  induction tl generalizing s0 with
  | nil => simpa [insertAll] using h
  | cons f ftl ih =>
    simp only [insertAll, List.foldl_cons]
    exact ih _ (mem_bucket_insert _ _ _ _ _ _ h)

/-- Freshly inserting an item puts it in the bucket of `hash s x y`. -/
theorem mem_bucket_insert_self {T : Type} [DecidableEq T] (s : State T) (it : T) (x y : ℚ) :
    it ∈ ((insert s it x y).grid (hash s x y)).getD [] := by
  rw [insert_grid, if_pos rfl, Option.getD_some]
  exact List.mem_append_right _ (List.mem_singleton.mpr rfl)

theorem hash_insert {T : Type} [DecidableEq T] (s : State T) (j : T) (a b xi yi : ℚ) :
    hash (insert s j a b) xi yi = hash s xi yi := rfl

/-- After a batch insert, every inserted item is in the bucket of the cell it
was inserted into (keyed by the original cell size). -/
theorem mem_bucket_insertAll0 {T : Type} [DecidableEq T]
    (l : List (T × ℚ × ℚ)) (s : State T) (it : T) (xi yi : ℚ)
    (hmem : (it, xi, yi) ∈ l) :
    it ∈ ((insertAll s l).grid (hash s xi yi)).getD [] := by
  induction l generalizing s with
  | nil => cases hmem
  | cons e tl ih =>
    rcases List.mem_cons.mp hmem with he | htl
    · subst he
      simp only [insertAll, List.foldl_cons]
      exact mem_bucket_insertAll_of_mem tl _ it _ (mem_bucket_insert_self s it xi yi)
    · have h2 := ih (insert s e.1 e.2.1 e.2.2) htl
      rw [hash_insert] at h2
      simpa [insertAll] using h2

/-- After a batch insert, every inserted item is in the bucket of the cell it
was inserted into. -/
theorem mem_bucket_insertAll {T : Type} [DecidableEq T]
    (l : List (T × ℚ × ℚ)) (s : State T) (it : T) (xi yi : ℚ)
    (hmem : (it, xi, yi) ∈ l) :
    it ∈ ((insertAll s l).grid (hash (insertAll s l) xi yi)).getD [] := by
  have hkey : hash (insertAll s l) xi yi = hash s xi yi := by
    unfold hash
    rw [insertAll_cellSize]
  rw [hkey]
  exact mem_bucket_insertAll0 l s it xi yi hmem

/-- Membership in an inclusive integer range list. -/
theorem mem_intRange (lo hi k : ℤ) (h1 : lo ≤ k) (h2 : k ≤ hi) : k ∈ intRange lo hi := by
  have h3 : (k - lo).toNat < (hi + 1 - lo).toNat := by omega
  have h4 : lo + ((k - lo).toNat : ℤ) = k := by omega
  unfold intRange
  exact List.mem_map.mpr ⟨(k - lo).toNat, List.mem_range.mpr h3, h4⟩

/-- The floor used by the source embedding agrees with Mathlib's. -/
theorem ratFloor_eq_intFloor (q : ℚ) : Rat.floor q = ⌊q⌋ := rfl

/-- Any bucket scanned by the double loop of `query` contributes its members. -/
theorem mem_query {T : Type} (s : State T) (x y radius : ℚ) (it : T) (cx cy : ℤ)
    (hx1 : ⌊(x - radius) / s.cellSize⌋ ≤ cx) (hx2 : cx ≤ ⌊(x + radius) / s.cellSize⌋)
    (hy1 : ⌊(y - radius) / s.cellSize⌋ ≤ cy) (hy2 : cy ≤ ⌊(y + radius) / s.cellSize⌋)
    (hb : it ∈ (s.grid (getCellKey cx cy)).getD []) :
    it ∈ query s x y radius := by
  unfold query
  rw [ratFloor_eq_intFloor, ratFloor_eq_intFloor, ratFloor_eq_intFloor, ratFloor_eq_intFloor]
  exact List.mem_flatMap.mpr
    ⟨cy, mem_intRange _ _ _ hy1 hy2, List.mem_flatMap.mpr ⟨cx, mem_intRange _ _ _ hx1 hx2, hb⟩⟩

/-- A one-coordinate consequence of a squared-distance bound. -/
theorem coord_bounds (a c R : ℚ) (hR : 0 ≤ R) (h : (a - c) ^ 2 ≤ R ^ 2) :
    c - R ≤ a ∧ a ≤ c + R := by
  constructor
  · nlinarith [sq_nonneg (a - c + R), sq_nonneg (a - c - R)]
  · nlinarith [sq_nonneg (a - c + R), sq_nonneg (a - c - R)]

/-- C3 : querying radius `R` around `(x, y)` returns a superset of all inserted
items whose true Euclidean distance from `(x, y)` is at most `R` (stated with
squared distances; no false negatives). -/
theorem query_is_broadphase_superset {T : Type} [DecidableEq T] (cs : ℚ) (hcs : 0 < cs)
    (inserts : List (T × ℚ × ℚ)) (it : T) (xi yi : ℚ)
    (hmem : (it, xi, yi) ∈ inserts) (x y R : ℚ) (hR : 0 ≤ R)
    (hdist : (xi - x) ^ 2 + (yi - y) ^ 2 ≤ R ^ 2) :
    it ∈ query (insertAll (init T cs) inserts) x y R := by
  have hxsq : (xi - x) ^ 2 ≤ R ^ 2 := by nlinarith [sq_nonneg (yi - y)]
  have hysq : (yi - y) ^ 2 ≤ R ^ 2 := by nlinarith [sq_nonneg (xi - x)]
  obtain ⟨hx1, hx2⟩ := coord_bounds xi x R hR hxsq
  obtain ⟨hy1, hy2⟩ := coord_bounds yi y R hR hysq
  have hb := mem_bucket_insertAll0 inserts (init T cs) it xi yi hmem
  have hcszero : (insertAll (init T cs) inserts).cellSize = cs :=
    insertAll_cellSize inserts (init T cs)
  have hfloor : ∀ a b : ℚ, a ≤ b → ⌊a / cs⌋ ≤ ⌊b / cs⌋ := fun a b hab =>
    Int.floor_le_floor ((div_le_div_iff_of_pos_right hcs).mpr hab)
  rw [show hash (init T cs) xi yi
      = getCellKey ⌊xi / cs⌋ ⌊yi / cs⌋ from rfl] at hb
  exact mem_query _ x y R it ⌊xi / cs⌋ ⌊yi / cs⌋
    (by rw [hcszero]; exact hfloor _ _ hx1)
    (by rw [hcszero]; exact hfloor _ _ hx2)
    (by rw [hcszero]; exact hfloor _ _ hy1)
    (by rw [hcszero]; exact hfloor _ _ hy2)
    hb

/-- C3 witness: item 7 inserted at (2, 3) is returned by a radius-4 query
around the origin (its distance is sqrt 13 < 4); cell size 1. -/
theorem query_is_broadphase_superset_witness :
    (7:ℕ) ∈ query (insertAll (init ℕ 1) [(7, 2, 3)]) 0 0 4 :=
  query_is_broadphase_superset 1 (by norm_num) [(7, 2, 3)] 7 2 3 (by simp)
    0 0 4 (by norm_num) (by norm_num)

theorem ratFloorZero : Rat.floor (0:ℚ) = 0 := by
  rw [ratFloor_eq_intFloor]
  norm_num

theorem ratFloorFive : Rat.floor (5:ℚ) = 5 := by
  rw [ratFloor_eq_intFloor]
  norm_num

theorem keyZero : getCellKey 0 0 = 0 := by decide

theorem keyFive : getCellKey 5 5 = 327685 := by decide

/-- C2 : the claim fails on the code.  With cell size 1, insert item 0 at
(0, 0) (cell key 0) and then `update(0, 5, 5)` (a different cell): because
`remove` guards its reverse-index lookup with JS falsiness (`if (!key)
return`), the numeric cell key 0 is treated as missing, the item is never
removed from its old bucket, and a query covering only the old cell still
returns it.  This theorem evaluates the code on that input: the old and new
cells differ, yet the old-cell query still contains the item. -/
theorem update_leaves_item_in_origin_cell :
    hash (init ℕ 1) 0 0 ≠ hash (init ℕ 1) 5 5
    ∧ (0:ℕ) ∈ query (update (insert (init ℕ 1) 0 0 0) 0 5 5) 0 0 0 := by
  have hcs : (init ℕ 1).cellSize = 1 := rfl
  have hh0 : hash (init ℕ 1) 0 0 = 0 := by
    simp [hash, hcs, ratFloorZero, keyZero]
  have hh5 : hash (init ℕ 1) 5 5 = 327685 := by
    simp [hash, hcs, ratFloorFive, keyFive]
  constructor
  · rw [hh0, hh5]
    decide
  · have hs1rev : (insert (init ℕ 1) 0 0 0).reverse 0 = some 0 := by
      simp [insert, hh0]
    have hinitgrid : (init ℕ 1).grid 0 = none := rfl
    have hs1grid : (insert (init ℕ 1) 0 0 0).grid 0 = some [0] := by
      rw [insert_grid, hh0, if_pos rfl, hinitgrid]
      rfl
    have hh5b : hash (insert (init ℕ 1) 0 0 0) 5 5 = 327685 := by
      rw [hash_insert, hh5]
    have hrem : remove (insert (init ℕ 1) 0 0 0) 0 = insert (init ℕ 1) 0 0 0 := by
      unfold remove
      rw [hs1rev]
      simp
    have hupd : update (insert (init ℕ 1) 0 0 0) 0 5 5
        = insert (insert (init ℕ 1) 0 0 0) 0 5 5 := by
      unfold update
      rw [hs1rev, hh5b, hrem]
      simp
    rw [hupd]
    have hgrid : (insert (insert (init ℕ 1) 0 0 0) 0 5 5).grid 0 = some [0] := by
      rw [insert_grid, hh5b, if_neg (by decide), hs1grid]
    unfold query
    simp only [insert_cellSize, hcs]
    rw [show ((0:ℚ) - 0) / 1 = 0 by norm_num, show ((0:ℚ) + 0) / 1 = 0 by norm_num,
      ratFloorZero]
    simp [intRange, keyZero, hgrid]

end SpatialHash

open scoped Classical

namespace LazyCache

/-- State of a `LazyCacheable` object: its fields (raw and cached together,
exactly as the class stores them) plus the dirty flag, initially `true`. -/
structure Lazy (α : Type) where
  fields : α
  isDirty : Bool

/-- `markDirty()`: set the flag, return self. -/
def markDirty {α : Type} (s : Lazy α) : Lazy α := { s with isDirty := true }

/-- `ensureRefreshed()` for a subclass whose `refresh` recomputes the cached
fields: a no-op on a clean object, otherwise run `refresh` and clear the
flag.  The second component counts how many times `refresh` ran (0 or 1) --
the observable that the spec's refresh-counter tests watch.  The post-refresh
`onRefreshed` hook is the default no-op in every shape of this repository. -/
def ensureRefreshed {α : Type} (refresh : α → α) (s : Lazy α) : Lazy α × ℕ :=
  if s.isDirty then ({ fields := refresh s.fields, isDirty := false }, 1) else (s, 0)

/-- A derived-property getter `get p() { this.ensureRefreshed(); return proj }`:
returns the projected value, the post-read state, and the refresh count. -/
def read {α V : Type} (refresh : α → α) (proj : α → V) (s : Lazy α) : V × Lazy α × ℕ :=
  ((ensureRefreshed refresh s).1.fields |> proj, (ensureRefreshed refresh s).1,
    (ensureRefreshed refresh s).2)

/-- A mutator that updates the fields and ends in `markDirty()`. -/
def mutate {α : Type} (f : α → α) (s : Lazy α) : Lazy α :=
  markDirty { s with fields := f s.fields }

/-- Validity of a lazy object: a clean object caches exactly what `refresh`
would recompute.  Objects are born dirty, so the invariant holds at
construction, and every operation preserves it. -/
def Inv {α : Type} (refresh : α → α) (s : Lazy α) : Prop :=
  s.isDirty = false → refresh s.fields = s.fields

theorem read_val_dirty {α V : Type} (refresh : α → α) (proj : α → V) (s : Lazy α)
    (h : s.isDirty = true) : (read refresh proj s).1 = proj (refresh s.fields) := by
  simp [read, ensureRefreshed, h]

/-- On any valid state, a getter returns the projection of the fully
refreshed fields (the value recomputed from the current raw state). -/
theorem read_val_of_inv {α V : Type} (refresh : α → α) (proj : α → V) (s : Lazy α)
    (hInv : Inv refresh s) : (read refresh proj s).1 = proj (refresh s.fields) := by
  cases hd : s.isDirty with
  | false => rw [hInv hd]; simp [read, ensureRefreshed, hd]
  | true => exact read_val_dirty refresh proj s hd

theorem mutate_isDirty {α : Type} (f : α → α) (s : Lazy α) :
    (mutate f s).isDirty = true := rfl

theorem inv_of_dirty {α : Type} (refresh : α → α) (s : Lazy α)
    (h : s.isDirty = true) : Inv refresh s := by
  intro hc
  rw [h] at hc
  cases hc

theorem inv_mutate {α : Type} (refresh f : α → α) (s : Lazy α) :
    Inv refresh (mutate f s) := inv_of_dirty refresh _ rfl

/-- A read leaves the object clean. -/
theorem read_state_clean {α V : Type} (refresh : α → α) (proj : α → V) (s : Lazy α) :
    (read refresh proj s).2.1.isDirty = false := by
  cases hd : s.isDirty <;> simp [read, ensureRefreshed, hd]

/-- A second consecutive read performs no refresh: its refresh count is 0. -/
theorem second_read_no_refresh {α V : Type} (refresh : α → α) (proj : α → V) (s : Lazy α) :
    (read refresh proj (read refresh proj s).2.1).2.2 = 0 := by
  cases hd : s.isDirty <;> simp [read, ensureRefreshed, hd]

/-- A read of a valid state preserves validity as long as `refresh` is
idempotent (it only writes cache fields it reads nothing from). -/
theorem inv_read {α V : Type} (refresh : α → α) (proj : α → V) (s : Lazy α)
    (hidem : ∀ f, refresh (refresh f) = refresh f) (hInv : Inv refresh s) :
    Inv refresh (read refresh proj s).2.1 := by
  cases hd : s.isDirty with
  | false => intro _; simp [read, ensureRefreshed, hd]; exact hInv hd
  | true => intro _; simp [read, ensureRefreshed, hd, hidem]

theorem read_fields_of_dirty {α V : Type} (refresh : α → α) (proj : α → V) (s : Lazy α)
    (h : s.isDirty = true) : (read refresh proj s).2.1.fields = refresh s.fields := by
  simp [read, ensureRefreshed, h]

theorem ensure_fields_of_inv {α : Type} (refresh : α → α) (s : Lazy α)
    (hInv : Inv refresh s) :
    (ensureRefreshed refresh s).1.fields = refresh s.fields := by
  cases hd : s.isDirty with
  | false => rw [hInv hd]; simp [ensureRefreshed, hd]
  | true => simp [ensureRefreshed, hd]

theorem ensure_clean {α : Type} (refresh : α → α) (s : Lazy α) :
    (ensureRefreshed refresh s).1.isDirty = false := by
  cases hd : s.isDirty <;> simp [ensureRefreshed, hd]

/-- `ensureRefreshed` keeps validity when `refresh` is idempotent. -/
theorem inv_ensure {α : Type} (refresh : α → α) (s : Lazy α)
    (hidem : ∀ f, refresh (refresh f) = refresh f) (hInv : Inv refresh s) :
    Inv refresh (ensureRefreshed refresh s).1 := by
  cases hd : s.isDirty with
  | false => intro _; simp [ensureRefreshed, hd]; exact hInv hd
  | true => intro _; simp [ensureRefreshed, hd, hidem]

end LazyCache

namespace Legacy

open LazyCache

/-- The core `Point`: a mutable (x, y) pair, here as an immutable value
(numbers idealized as reals). -/
structure Point where
  x : ℝ
  y : ℝ

/-- `Point.add` (componentwise). -/
def Point.add (p q : Point) : Point := ⟨p.x + q.x, p.y + q.y⟩

/-- `Point.subtract` (componentwise). -/
def Point.subtract (p q : Point) : Point := ⟨p.x - q.x, p.y - q.y⟩

/-- `Point.multiply` by a scalar. -/
def Point.multiply (p : Point) (scalar : ℝ) : Point := ⟨p.x * scalar, p.y * scalar⟩

/-- `Point.distance`: `Math.sqrt(x*x + y*y)` of the componentwise difference. -/
noncomputable def Point.distance (p q : Point) : ℝ :=
  Real.sqrt ((p.x - q.x) * (p.x - q.x) + (p.y - q.y) * (p.y - q.y))

/-- `Point.rotate(radians, pivot)`: shift by the pivot, apply the rotation
matrix, shift back. -/
noncomputable def Point.rotate (p : Point) (radians : ℝ) (pivot : Point) : Point :=
  let c := Real.cos radians
  let s := Real.sin radians
  let sx := p.x - pivot.x
  let sy := p.y - pivot.y
  ⟨sx * c - sy * s + pivot.x, sx * s + sy * c + pivot.y⟩

/-- A rectangle value (x, y, width, height), used for AABB results. -/
structure RectVal where
  x : ℝ
  y : ℝ
  width : ℝ
  height : ℝ

/-- Vertex access `vertices[i]` (indices used by the source are always in
range; out-of-range access defaults to the origin). -/
def vertAt (l : List Point) (i : ℕ) : Point := l.getD i ⟨0, 0⟩

/-- `Vector.cross2dFromPoints(a, b, c)`: z-component of the cross product of
the edges (b - a) and (c - b). -/
def cross2dFromPoints (a b c : Point) : ℝ :=
  (b.x - a.x) * (c.y - b.y) - (b.y - a.y) * (c.x - b.x)

/-- `Math.sign`, as an integer (-1, 0, 1). -/
noncomputable def mathSign (x : ℝ) : ℤ := if 0 < x then 1 else if x < 0 then -1 else 0

/-- `updateEdges`: `edge[i] = vertices[(i+1) % n] - vertices[i]`, as values
(the source mutates a pooled `Vector` array in place; the resulting values
are these). -/
def computeEdges (vs : List Point) : List Point :=
  (List.range vs.length).map fun i =>
    Point.subtract (vertAt vs ((i + 1) % vs.length)) (vertAt vs i)

/-- `calculateIsConcave`: polygons with at most 3 vertices are convex;
otherwise scan every corner's cross-product sign; the first nonzero sign is
remembered and any later nonzero disagreement makes the polygon concave
(the source's early `return` is modelled by the absorbing `true` state). -/
noncomputable def computeIsConcave (vs : List Point) : Bool :=
  if vs.length ≤ 3 then false
  else
    let n := vs.length
    ((List.range n).foldl (fun (st : ℤ × Bool) i =>
      if st.2 then st
      else
        let c := mathSign (cross2dFromPoints
          (vertAt vs ((i + n - 1) % n)) (vertAt vs i) (vertAt vs ((i + 1) % n)))
        if st.1 = 0 then (c, false)
        else if c ≠ 0 ∧ c ≠ st.1 then (st.1, true)
        else st) (0, false)).2

/-- The accumulator loop shared by `calculateCentroid`: weighted x sum,
weighted y sum, and the signed-area sum of cross terms. -/
def centroidAcc (vs : List Point) : ℝ × ℝ × ℝ :=
  (List.range vs.length).foldl (fun (t : ℝ × ℝ × ℝ) i =>
    let v := vertAt vs i
    let w := vertAt vs ((i + 1) % vs.length)
    let a := v.x * w.y - w.x * v.y
    (t.1 + (v.x + w.x) * a, t.2.1 + (v.y + w.y) * a, t.2.2 + a)) (0, 0, 0)

/-- `calculateCentroid`: zero-area polygons warn and set the centroid to the
origin; otherwise divide the weighted sums by `6 * area`. -/
noncomputable def computeCentroid (vs : List Point) : Point :=
  let t := centroidAcc vs
  let area := t.2.2 * 0.5
  if area = 0 then ⟨0, 0⟩
  else ⟨t.1 / (6 * area), t.2.1 / (6 * area)⟩

/-- `calculateArea`: the signed shoelace sum halved. -/
def computeArea (vs : List Point) : ℝ :=
  ((List.range vs.length).foldl (fun acc i =>
    let v := vertAt vs i
    let w := vertAt vs ((i + 1) % vs.length)
    acc + (v.x * w.y - w.x * v.y)) 0) * 0.5

/-- Minimum of a list of reals (the source folds `Math.min` from
`+Infinity`; for the nonempty vertex lists a polygon guarantees this equals
folding from the head). -/
def listMin : List ℝ → ℝ
  | [] => 0
  | x :: xs => xs.foldl min x

/-- Maximum of a list of reals (source folds `Math.max` from `-Infinity`). -/
def listMax : List ℝ → ℝ
  | [] => 0
  | x :: xs => xs.foldl max x

/-- `calculateAABB`: min / max scan over the vertices. -/
def computeAABB (vs : List Point) : RectVal :=
  let minX := listMin (vs.map Point.x)
  let maxX := listMax (vs.map Point.x)
  let minY := listMin (vs.map Point.y)
  let maxY := listMax (vs.map Point.y)
  ⟨minX, minY, maxX - minX, maxY - minY⟩

/-- `calculatePerimeter`: sum of consecutive-vertex distances, wrapping. -/
noncomputable def computePerimeter (vs : List Point) : ℝ :=
  (List.range vs.length).foldl (fun acc i =>
    acc + Point.distance (vertAt vs i) (vertAt vs ((i + 1) % vs.length))) 0

/-- The fields of a `Polygon`: raw state (position, vertices) and cached
derived state (edges, centroid, AABB, concavity, area, perimeter). -/
structure PolyFields where
  position : Point
  vertices : List Point
  edges : List Point
  centroid : Point
  aabb : RectVal
  isConcave : Bool
  area : ℝ
  perimeter : ℝ

/-- `Polygon.refresh`: edges first, then concavity, centroid, AABB, area and
perimeter, all recomputed from the vertices. -/
noncomputable def refreshPoly (f : PolyFields) : PolyFields :=
  { f with
    edges := computeEdges f.vertices
    isConcave := computeIsConcave f.vertices
    centroid := computeCentroid f.vertices
    aabb := computeAABB f.vertices
    area := computeArea f.vertices
    perimeter := computePerimeter f.vertices }

/-- `refresh` only writes cache fields it derives from the (unchanged)
vertices, so it is idempotent. -/
theorem refreshPoly_idem (f : PolyFields) : refreshPoly (refreshPoly f) = refreshPoly f := rfl

/-- The `Polygon` constructor: fewer than 3 vertices is a fatal error;
otherwise position is copied from the first vertex, the vertices are
deep-copied (value semantics here), `refresh()` is invoked once directly,
and the object is left with its dirty flag still set (the flag is only
cleared by `ensureRefreshed`). -/
noncomputable def mkPolygon (vs : List Point) : Except String (Lazy PolyFields) :=
  if vs.length < 3 then Except.error "A polygon must have at least 3 vertices."
  else Except.ok
    { fields := refreshPoly
        { position := vertAt vs 0
          vertices := vs
          edges := []
          centroid := ⟨0, 0⟩
          aabb := ⟨0, 0, 0, 0⟩
          isConcave := false
          area := 0
          perimeter := 0 }
      isDirty := true }

/-- The derived-property getters of `Polygon`. -/
inductive PolyGetter where
  | aabb | edges | centroid | isConcave | area | perimeter | position | vertices

/-- The value a polygon getter returns. -/
inductive PolyVal where
  | pt (p : Point)
  | pts (l : List Point)
  | rect (r : RectVal)
  | flag (b : Bool)
  | real (r : ℝ)

/-- The backing-field projection of each getter.  The `vertices` getter
returns a freshly cloned array (`map (clone)`); as values the clones equal
the stored vertices (the aliasing aspect is treated separately with a heap
model). -/
def polyProj : PolyGetter → PolyFields → PolyVal
  | .aabb, f => .rect f.aabb
  | .edges, f => .pts f.edges
  | .centroid, f => .pt f.centroid
  | .isConcave, f => .flag f.isConcave
  | .area, f => .real f.area
  | .perimeter, f => .real f.perimeter
  | .position, f => .pt f.position
  | .vertices, f => .pts f.vertices

/-- Reading a polygon getter: `ensureRefreshed()` then the projection. -/
noncomputable def Polygon.readGetter (g : PolyGetter) (s : Lazy PolyFields) :
    PolyVal × Lazy PolyFields × ℕ :=
  read refreshPoly (polyProj g) s

/-- JS `Array.prototype.splice(index, 1)` on the index actually removed:
negative indices count from the end, clamped into `[0, length]`. -/
def spliceIndex (len : ℕ) (i : ℤ) : ℕ :=
  (if i < 0 then max ((len : ℤ) + i) 0 else min i (len : ℤ)).toNat

/-- `setPosition(x, y)`: translate every vertex by the delta to the new
position, then redefine the position as vertex 0. -/
def Polygon.setPositionXY (x y : ℝ) (s : Lazy PolyFields) : Lazy PolyFields :=
  let change : Point := ⟨x - s.fields.position.x, y - s.fields.position.y⟩
  let verts := s.fields.vertices.map (fun v => Point.add v change)
  markDirty { s with fields := { s.fields with vertices := verts, position := vertAt verts 0 } }

/-- `setPosition(point)`: the overload only copies the position field. -/
def Polygon.setPositionPoint (p : Point) (s : Lazy PolyFields) : Lazy PolyFields :=
  markDirty { s with fields := { s.fields with position := p } }

/-- `rotateBy(angle, pivot)`: rotate every vertex around the pivot. -/
noncomputable def Polygon.rotateByPivot (angle : ℝ) (pivot : Point) (s : Lazy PolyFields) :
    Lazy PolyFields :=
  markDirty { s with fields :=
    { s.fields with vertices := s.fields.vertices.map (fun v => v.rotate angle pivot) } }

/-- `rotateBy(angle)` with the default pivot: the cached centroid field. -/
noncomputable def Polygon.rotateByDefault (angle : ℝ) (s : Lazy PolyFields) : Lazy PolyFields :=
  Polygon.rotateByPivot angle s.fields.centroid s

/-- `translate(offset)`: add the offset to every vertex. -/
def Polygon.translateBy (offset : Point) (s : Lazy PolyFields) : Lazy PolyFields :=
  markDirty { s with fields :=
    { s.fields with vertices := s.fields.vertices.map (fun v => Point.add v offset) } }

/-- `scale(factor, pivot)`: `(v - pivot) * factor + pivot` per vertex. -/
def Polygon.scaleByPivot (k : ℝ) (pivot : Point) (s : Lazy PolyFields) : Lazy PolyFields :=
  let verts := s.fields.vertices.map
    (fun v => Point.add (Point.multiply (Point.subtract v pivot) k) pivot)
  markDirty { s with fields := { s.fields with vertices := verts } }

/-- `scale(factor)` with the default pivot: the cached centroid field. -/
def Polygon.scaleByDefault (k : ℝ) (s : Lazy PolyFields) : Lazy PolyFields :=
  Polygon.scaleByPivot k s.fields.centroid s

/-- `addVertex(vertex)`: push and mark dirty. -/
def Polygon.addVertex (v : Point) (s : Lazy PolyFields) : Lazy PolyFields :=
  markDirty { s with fields := { s.fields with vertices := s.fields.vertices ++ [v] } }

/-- `removeVertex(index)`: refuses (warns, no-op) at exactly 3 vertices,
otherwise splices the index out and marks dirty. -/
def Polygon.removeVertex (i : ℤ) (s : Lazy PolyFields) : Lazy PolyFields :=
  if s.fields.vertices.length = 3 then s
  else
    let verts := s.fields.vertices.eraseIdx (spliceIndex s.fields.vertices.length i)
    markDirty { s with fields := { s.fields with vertices := verts } }

/-- `updateVertex(index, vertex)`: warns and no-ops on an out-of-range
index, otherwise replaces the vertex and marks dirty. -/
def Polygon.updateVertex (i : ℤ) (v : Point) (s : Lazy PolyFields) : Lazy PolyFields :=
  if i < 0 ∨ (s.fields.vertices.length : ℤ) ≤ i then s
  else
    let verts := s.fields.vertices.set i.toNat v
    markDirty { s with fields := { s.fields with vertices := verts } }

/-- The mutators of `Polygon`. -/
inductive PolyMut where
  | setPositionXY (x y : ℝ)
  | setPositionPoint (p : Point)
  | rotateByPivot (angle : ℝ) (pivot : Point)
  | rotateByDefault (angle : ℝ)
  | translateBy (offset : Point)
  | scaleByPivot (k : ℝ) (pivot : Point)
  | scaleByDefault (k : ℝ)
  | addVertex (v : Point)
  | removeVertex (i : ℤ)
  | updateVertex (i : ℤ) (v : Point)

/-- Dispatch a polygon mutator. -/
noncomputable def Polygon.applyMut : PolyMut → Lazy PolyFields → Lazy PolyFields
  | .setPositionXY x y => Polygon.setPositionXY x y
  | .setPositionPoint p => Polygon.setPositionPoint p
  | .rotateByPivot a p => Polygon.rotateByPivot a p
  | .rotateByDefault a => Polygon.rotateByDefault a
  | .translateBy o => Polygon.translateBy o
  | .scaleByPivot k p => Polygon.scaleByPivot k p
  | .scaleByDefault k => Polygon.scaleByDefault k
  | .addVertex v => Polygon.addVertex v
  | .removeVertex i => Polygon.removeVertex i
  | .updateVertex i v => Polygon.updateVertex i v

/-- Every polygon mutator leaves a state that is either dirty or untouched,
so validity is preserved. -/
theorem inv_applyMut (m : PolyMut) (s : Lazy PolyFields) (hInv : Inv refreshPoly s) :
    Inv refreshPoly (Polygon.applyMut m s) := by
  cases m with
  | setPositionXY x y => exact inv_of_dirty _ _ rfl
  | setPositionPoint p => exact inv_of_dirty _ _ rfl
  | rotateByPivot a p => exact inv_of_dirty _ _ rfl
  | rotateByDefault a => exact inv_of_dirty _ _ rfl
  | translateBy o => exact inv_of_dirty _ _ rfl
  | scaleByPivot k p => exact inv_of_dirty _ _ rfl
  | scaleByDefault k => exact inv_of_dirty _ _ rfl
  | addVertex v => exact inv_of_dirty _ _ rfl
  | removeVertex i =>
    by_cases h3 : s.fields.vertices.length = 3
    · simpa [Polygon.applyMut, Polygon.removeVertex, h3] using hInv
    · simp only [Polygon.applyMut, Polygon.removeVertex, if_neg h3]
      exact inv_of_dirty _ _ rfl
  | updateVertex i v =>
    by_cases hr : i < 0 ∨ (s.fields.vertices.length : ℤ) ≤ i
    · simpa [Polygon.applyMut, Polygon.updateVertex, hr] using hInv
    · simp only [Polygon.applyMut, Polygon.updateVertex, if_neg hr]
      exact inv_of_dirty _ _ rfl

/-- C8 : every polygon has at least 3 vertices at all times.  Construction
with fewer than 3 vertices raises; a constructed polygon starts with its
given vertices; `removeVertex` at exactly 3 vertices warns and leaves the
polygon unchanged; and every mutator preserves the 3-vertex floor. -/
theorem polygon_min_three_vertices :
    (∀ vs : List Point,
      (mkPolygon vs = Except.error "A polygon must have at least 3 vertices.")
        ↔ vs.length < 3)
    ∧ (∀ (vs : List Point) (p : Lazy PolyFields), mkPolygon vs = Except.ok p →
        3 ≤ p.fields.vertices.length)
    ∧ (∀ (s : Lazy PolyFields) (i : ℤ), s.fields.vertices.length = 3 →
        Polygon.removeVertex i s = s)
    ∧ (∀ (s : Lazy PolyFields) (m : PolyMut), 3 ≤ s.fields.vertices.length →
        3 ≤ (Polygon.applyMut m s).fields.vertices.length) := by
  refine ⟨?_, ?_, ?_, ?_⟩
  · intro vs
    unfold mkPolygon
    by_cases h : vs.length < 3
    · simp [h]
    · simp [h]
  · intro vs p hp
    unfold mkPolygon at hp
    by_cases h : vs.length < 3
    · simp [h] at hp
    · simp [h] at hp
      subst hp
      simp [refreshPoly]
      omega
  · intro s i h3
    simp [Polygon.removeVertex, h3]
  · intro s m h3
    cases m with
    | setPositionXY x y => simpa [Polygon.applyMut, Polygon.setPositionXY, markDirty] using h3
    | setPositionPoint p => exact h3
    | rotateByPivot a p =>
      simpa [Polygon.applyMut, Polygon.rotateByPivot, markDirty] using h3
    | rotateByDefault a =>
      simpa [Polygon.applyMut, Polygon.rotateByDefault, Polygon.rotateByPivot, markDirty] using h3
    | translateBy o => simpa [Polygon.applyMut, Polygon.translateBy, markDirty] using h3
    | scaleByPivot k p => simpa [Polygon.applyMut, Polygon.scaleByPivot, markDirty] using h3
    | scaleByDefault k =>
      simpa [Polygon.applyMut, Polygon.scaleByDefault, Polygon.scaleByPivot, markDirty] using h3
    | addVertex v =>
      simp [Polygon.applyMut, Polygon.addVertex, markDirty]
      omega
    | removeVertex i =>
      by_cases hlen : s.fields.vertices.length = 3
      · simp only [Polygon.applyMut, Polygon.removeVertex, if_pos hlen]
        exact h3
      · simp [Polygon.applyMut, Polygon.removeVertex, hlen, markDirty, List.length_eraseIdx]
        split <;> omega
    | updateVertex i v =>
      by_cases hr : i < 0 ∨ (s.fields.vertices.length : ℤ) ≤ i
      · simpa [Polygon.applyMut, Polygon.updateVertex, hr] using h3
      · simpa [Polygon.applyMut, Polygon.updateVertex, hr, markDirty] using h3

/-- A concrete triangle polygon state, born dirty like every constructed
shape. -/
noncomputable def triPoly : Lazy PolyFields :=
  { fields :=
      { position := ⟨0, 0⟩
        vertices := [⟨0, 0⟩, ⟨4, 0⟩, ⟨0, 4⟩]
        edges := []
        centroid := ⟨0, 0⟩
        aabb := ⟨0, 0, 0, 0⟩
        isConcave := false
        area := 0
        perimeter := 0 }
    isDirty := true }

/-- C8 witness: on a concrete triangle, `removeVertex` keeps the 3-vertex
floor and is a no-op. -/
theorem polygon_min_three_vertices_witness :
    3 ≤ (Polygon.applyMut (PolyMut.removeVertex 0) triPoly).fields.vertices.length
    ∧ Polygon.removeVertex 0 triPoly = triPoly :=
  ⟨polygon_min_three_vertices.2.2.2 triPoly (PolyMut.removeVertex 0) (by simp [triPoly]),
   polygon_min_three_vertices.2.2.1 triPoly 0 (by simp [triPoly])⟩

/-- C9 : the polygon built on the unit square [(0,0),(1,0),(1,1),(0,1)] has
area 1, perimeter 4, centroid (0.5, 0.5), and is not concave. -/
theorem polygon_unit_square_shoelace :
    (mkPolygon [⟨0, 0⟩, ⟨1, 0⟩, ⟨1, 1⟩, ⟨0, 1⟩]).map (fun s =>
      ((Polygon.readGetter .area s).1, (Polygon.readGetter .perimeter s).1,
       (Polygon.readGetter .centroid s).1, (Polygon.readGetter .isConcave s).1))
      = Except.ok (PolyVal.real 1, PolyVal.real 4, PolyVal.pt ⟨0.5, 0.5⟩,
          PolyVal.flag false) := by
  rw [mkPolygon, if_neg (by norm_num)]
  rw [Except.map]
  have harea : computeArea [(⟨0, 0⟩ : Point), ⟨1, 0⟩, ⟨1, 1⟩, ⟨0, 1⟩] = 1 := by
    simp [computeArea, vertAt, List.range_succ]
    norm_num
  have hperi : computePerimeter [(⟨0, 0⟩ : Point), ⟨1, 0⟩, ⟨1, 1⟩, ⟨0, 1⟩] = 4 := by
    simp [computePerimeter, Point.distance, vertAt, List.range_succ]
    norm_num [Real.sqrt_one]
  have hcent : computeCentroid [(⟨0, 0⟩ : Point), ⟨1, 0⟩, ⟨1, 1⟩, ⟨0, 1⟩] = ⟨0.5, 0.5⟩ := by
    simp [computeCentroid, centroidAcc, vertAt, List.range_succ]
    norm_num
  have hconc : computeIsConcave [(⟨0, 0⟩ : Point), ⟨1, 0⟩, ⟨1, 1⟩, ⟨0, 1⟩] = false := by
    simp [computeIsConcave, mathSign, cross2dFromPoints, vertAt, List.range_succ]
  simp [Polygon.readGetter, LazyCache.read, ensureRefreshed, refreshPoly, polyProj,
    harea, hperi, hcent, hconc]

end Legacy

namespace Legacy

open LazyCache

/-- A tiny allocation model for `Point` objects: identities are naturals,
the heap maps each identity to its current value, `next` is the next fresh
identity.  Only this claim needs object identity, so the model is local. -/
structure PHeap where
  next : ℕ
  val : ℕ → Point

/-- `new Point(x, y)` / `clone()`: allocate a fresh identity for the value. -/
def alloc (h : PHeap) (p : Point) : ℕ × PHeap :=
  (h.next, { next := h.next + 1, val := fun i => if i = h.next then p else h.val i })

/-- The caller mutating a point object in place (`set`, `add`, ...). -/
def heapSet (h : PHeap) (i : ℕ) (p : Point) : PHeap :=
  { h with val := fun j => if j = i then p else h.val j }

/-- The body of the `vertices` getter, `this._vertices.map((v) => v.clone())`:
allocate a fresh clone of each stored vertex, in order, returning the new
identities and the grown heap. -/
def cloneVertices (h : PHeap) : List ℕ → List ℕ × PHeap
  | [] => ([], h)
  | i :: is =>
    let a := alloc h (h.val i)
    let rest := cloneVertices a.2 is
    (a.1 :: rest.1, rest.2)

theorem alloc_next (h : PHeap) (p : Point) : (alloc h p).2.next = h.next + 1 := rfl

theorem alloc_fst (h : PHeap) (p : Point) : (alloc h p).1 = h.next := rfl

theorem alloc_val_self (h : PHeap) (p : Point) : (alloc h p).2.val h.next = p := by
  simp [alloc]

theorem alloc_val_other (h : PHeap) (p : Point) (i : ℕ) (hi : i ≠ h.next) :
    (alloc h p).2.val i = h.val i := by
  simp [alloc, hi]

theorem heapSet_val (h : PHeap) (i : ℕ) (p : Point) (j : ℕ) :
    (heapSet h i p).val j = if j = i then p else h.val j := rfl

theorem cloneVertices_next_le (ids : List ℕ) (h : PHeap) :
    h.next ≤ (cloneVertices h ids).2.next := by
  induction ids generalizing h with
  | nil => simp [cloneVertices]
  | cons i is ih =>
    simp only [cloneVertices]
    have h1 := ih (alloc h (h.val i)).2
    have h2 := alloc_next h (h.val i)
    omega

theorem cloneVertices_fresh (ids : List ℕ) (h : PHeap) :
    ∀ j ∈ (cloneVertices h ids).1, h.next ≤ j := by
  induction ids generalizing h with
  | nil => simp [cloneVertices]
  | cons i is ih =>
    intro j hj
    simp only [cloneVertices, List.mem_cons] at hj
    rcases hj with hj | hj
    · subst hj
      simp [alloc_fst]
    · have h1 := ih (alloc h (h.val i)).2 j hj
      have h2 := alloc_next h (h.val i)
      omega

theorem cloneVertices_preserves (ids : List ℕ) (h : PHeap) (i : ℕ) (hi : i < h.next) :
    (cloneVertices h ids).2.val i = h.val i := by
  induction ids generalizing h with
  | nil => simp [cloneVertices]
  | cons k ks ih =>
    simp only [cloneVertices]
    have h2 := ih (alloc h (h.val k)).2 (by rw [alloc_next]; omega)
    rw [h2, alloc_val_other _ _ _ (by omega)]

theorem cloneVertices_values (ids : List ℕ) (h : PHeap) (hwf : ∀ i ∈ ids, i < h.next) :
    (cloneVertices h ids).1.map (cloneVertices h ids).2.val = ids.map h.val := by
  induction ids generalizing h with
  | nil => simp [cloneVertices]
  | cons i is ih =>
    simp only [cloneVertices, List.map_cons, List.cons.injEq]
    have hwfi : i < h.next := hwf i (List.mem_cons_self i is)
    have hwf2 : ∀ k ∈ is, k < (alloc h (h.val i)).2.next := by
      intro k hk
      have := hwf k (List.mem_cons_of_mem i hk)
      rw [alloc_next]
      omega
    constructor
    · rw [alloc_fst]
      rw [cloneVertices_preserves is (alloc h (h.val i)).2 h.next (by rw [alloc_next]; omega)]
      exact alloc_val_self h (h.val i)
    · rw [ih (alloc h (h.val i)).2 hwf2]
      apply List.map_congr_left
      intro k hk
      exact alloc_val_other _ _ _ (by have := hwf k (List.mem_cons_of_mem i hk); omega)

/-- C10 : the `vertices` getter returns freshly cloned `Point` objects: no
returned identity aliases a stored vertex, the clones carry the stored
values, and overwriting any returned clone leaves the polygon's stored
vertex values — and hence every derived property (area, centroid, edges,
AABB, perimeter, concavity) — unchanged. -/
theorem vertices_getter_clones_are_independent
    (h : PHeap) (ids : List ℕ) (hwf : ∀ i ∈ ids, i < h.next) :
    (∀ j ∈ (cloneVertices h ids).1, j ∉ ids)
    ∧ (cloneVertices h ids).1.map (cloneVertices h ids).2.val = ids.map h.val
    ∧ (∀ j ∈ (cloneVertices h ids).1, ∀ q : Point,
        ids.map (heapSet (cloneVertices h ids).2 j q).val = ids.map h.val
        ∧ computeArea (ids.map (heapSet (cloneVertices h ids).2 j q).val)
            = computeArea (ids.map h.val)
        ∧ computeCentroid (ids.map (heapSet (cloneVertices h ids).2 j q).val)
            = computeCentroid (ids.map h.val)
        ∧ computeEdges (ids.map (heapSet (cloneVertices h ids).2 j q).val)
            = computeEdges (ids.map h.val)
        ∧ computeAABB (ids.map (heapSet (cloneVertices h ids).2 j q).val)
            = computeAABB (ids.map h.val)
        ∧ computePerimeter (ids.map (heapSet (cloneVertices h ids).2 j q).val)
            = computePerimeter (ids.map h.val)
        ∧ computeIsConcave (ids.map (heapSet (cloneVertices h ids).2 j q).val)
            = computeIsConcave (ids.map h.val)) := by
  have hfreshmem : ∀ j ∈ (cloneVertices h ids).1, j ∉ ids := by
    intro j hj hmem
    have h1 := cloneVertices_fresh ids h j hj
    have h2 := hwf j hmem
    omega
  refine ⟨hfreshmem, cloneVertices_values ids h hwf, ?_⟩
  intro j hj q
  have hmap : ids.map (heapSet (cloneVertices h ids).2 j q).val = ids.map h.val := by
    apply List.map_congr_left
    intro i hi
    rw [heapSet_val]
    have hne : i ≠ j := fun he => hfreshmem j hj (he ▸ hi)
    rw [if_neg hne]
    exact cloneVertices_preserves ids h i (hwf i hi)
  exact ⟨hmap, congrArg computeArea hmap, congrArg computeCentroid hmap,
    congrArg computeEdges hmap, congrArg computeAABB hmap,
    congrArg computePerimeter hmap, congrArg computeIsConcave hmap⟩

/-- A concrete three-object heap for the C10 witness. -/
noncomputable def demoHeap : PHeap :=
  { next := 3, val := fun i => if i = 0 then ⟨0, 0⟩ else if i = 1 then ⟨4, 0⟩ else ⟨0, 4⟩ }

/-- C10 witness: on a concrete heap holding a triangle, the getter's clones
carry the stored values. -/
theorem vertices_getter_clones_witness :
    (cloneVertices demoHeap [0, 1, 2]).1.map (cloneVertices demoHeap [0, 1, 2]).2.val
      = [0, 1, 2].map demoHeap.val :=
  (vertices_getter_clones_are_independent demoHeap [0, 1, 2]
    (by intro i hi; fin_cases hi <;> simp [demoHeap])).2.1

end Legacy

namespace Legacy

/-- JS `Math.atan2(y, x)`, with range (-π, π], as the argument of x + yi. -/
noncomputable def atan2 (y x : ℝ) : ℝ := Complex.arg ⟨x, y⟩

/-- `Point.midpoint` (componentwise average). -/
noncomputable def Point.midpoint (p q : Point) : Point :=
  ⟨(p.x + q.x) / 2, (p.y + q.y) / 2⟩

/-- `Point.angle(point)`: the screen-convention angle, with the y axis
negated (`atan2(this.y - point.y, point.x - this.x)`). -/
noncomputable def Point.angleTo (p q : Point) : ℝ := atan2 (p.y - q.y) (q.x - p.x)

open LazyCache

/-- The fields of a `Line` (the raw endpoints and the cached length,
midpoint, angle and direction vector).  `endp` stands for the source's
`_end` field (`end` is reserved in Lean). -/
structure LineFields where
  origin : Point
  endp : Point
  midpoint : Point
  vector : Point
  length : ℝ
  angle : ℝ

/-- `Line.refresh`: length, midpoint, angle, then direction vector. -/
noncomputable def refreshLine (f : LineFields) : LineFields :=
  { f with
    length := Point.distance f.origin f.endp
    midpoint := Point.midpoint f.origin f.endp
    angle := Point.angleTo f.origin f.endp
    vector := Point.subtract f.endp f.origin }

theorem refreshLine_idem (f : LineFields) : refreshLine (refreshLine f) = refreshLine f := rfl

/-- The `Line` constructor: copy the endpoints, run `refresh()` once
directly, and stay dirty. -/
noncomputable def mkLine (origin endp : Point) : Lazy LineFields :=
  { fields := refreshLine
      { origin := origin, endp := endp, midpoint := ⟨0, 0⟩, vector := ⟨0, 0⟩
        length := 0, angle := 0 }
    isDirty := true }

/-- `Line` has no mutators: its class exposes only getters. -/
inductive LineMut : Type

/-- The getters of `Line`. -/
inductive LineGetter where
  | origin | endp | vector | length | midpoint | angle

/-- Values of line getters. -/
inductive LineVal where
  | pt (p : Point)
  | real (r : ℝ)

/-- The backing-field projection of each line getter. -/
def lineProj : LineGetter → LineFields → LineVal
  | .origin, f => .pt f.origin
  | .endp, f => .pt f.endp
  | .vector, f => .pt f.vector
  | .length, f => .real f.length
  | .midpoint, f => .pt f.midpoint
  | .angle, f => .real f.angle

/-- Dispatch of the (nonexistent) line mutators. -/
def Line.applyMut : LineMut → Lazy LineFields → Lazy LineFields := fun m => nomatch m

/-- Reading a line getter. -/
noncomputable def Line.readGetter (g : LineGetter) (s : Lazy LineFields) :
    LineVal × Lazy LineFields × ℕ :=
  read refreshLine (lineProj g) s

end Legacy

namespace MathPkg

open LazyCache

/-- The fields of the math-package `Circle`: raw center and radius, cached
AABB, area, circumference and squared radius.  Numbers idealized as reals
(this claim is about the positivity guard, which is real arithmetic). -/
structure CircleFields where
  posX : ℝ
  posY : ℝ
  radius : ℝ
  aabb : Legacy.RectVal
  area : ℝ
  circumference : ℝ
  squaredRadius : ℝ

/-- `Circle.refresh`: AABB, area, circumference, squared radius. -/
noncomputable def refreshCircle (f : CircleFields) : CircleFields :=
  { f with
    aabb := ⟨f.posX - f.radius, f.posY - f.radius, f.radius * 2, f.radius * 2⟩
    area := Real.pi * f.radius * f.radius
    circumference := 2 * Real.pi * f.radius
    squaredRadius := f.radius * f.radius }

theorem refreshCircle_idem (f : CircleFields) :
    refreshCircle (refreshCircle f) = refreshCircle f := rfl

/-- `Circle.setPosition(position)`: copy the center, mark dirty. -/
def Circle.setPosition (x y : ℝ) (s : Lazy CircleFields) : Lazy CircleFields :=
  markDirty { s with fields := { s.fields with posX := x, posY := y } }

/-- `Circle.translate(offset)`: add the offset to the center, mark dirty. -/
def Circle.translate (dx dy : ℝ) (s : Lazy CircleFields) : Lazy CircleFields :=
  markDirty { s with fields :=
    { s.fields with posX := s.fields.posX + dx, posY := s.fields.posY + dy } }

/-- `Circle.setRadius(radius)`: throws when `radius <= 0`, before any
assignment, leaving the object untouched (the Bool records the throw);
otherwise assigns the radius and the squared radius and marks dirty. -/
noncomputable def Circle.setRadius (r : ℝ) (s : Lazy CircleFields) : Lazy CircleFields × Bool :=
  if r ≤ 0 then (s, true)
  else (markDirty { s with fields := { s.fields with radius := r, squaredRadius := r * r } },
    false)

/-- The `Circle` constructor: `setPosition`, then `setRadius` (whose throw
propagates out as a construction failure), then one direct `refresh()`;
the dirty flag stays set. -/
noncomputable def mkCircle (x y r : ℝ) : Except String (Lazy CircleFields) :=
  let s1 := Circle.setPosition x y
    { fields := ⟨0, 0, 0, ⟨0, 0, 0, 0⟩, 0, 0, 0⟩, isDirty := true }
  let p := Circle.setRadius r s1
  if p.2 then Except.error "Circle radius must be greater than zero."
  else Except.ok { fields := refreshCircle p.1.fields, isDirty := p.1.isDirty }

/-- The mutators of `Circle`. -/
inductive CircleMut where
  | setPosition (x y : ℝ)
  | translate (dx dy : ℝ)
  | setRadius (r : ℝ)

/-- Dispatch a circle mutator (for `setRadius`, the state after the call,
whether it threw or not). -/
noncomputable def Circle.applyMut : CircleMut → Lazy CircleFields → Lazy CircleFields
  | .setPosition x y => Circle.setPosition x y
  | .translate dx dy => Circle.translate dx dy
  | .setRadius r => fun s => (Circle.setRadius r s).1

/-- The derived-property getters of `Circle`. -/
inductive CircleGetter where
  | position | x | y | radius | squaredRadius | circumference | area | aabb

/-- Values of circle getters. -/
inductive CircleVal where
  | pt (x y : ℝ)
  | real (r : ℝ)
  | rect (r : Legacy.RectVal)

/-- The backing-field projection of each circle getter. -/
def circleProj : CircleGetter → CircleFields → CircleVal
  | .position, f => .pt f.posX f.posY
  | .x, f => .real f.posX
  | .y, f => .real f.posY
  | .radius, f => .real f.radius
  | .squaredRadius, f => .real f.squaredRadius
  | .circumference, f => .real f.circumference
  | .area, f => .real f.area
  | .aabb, f => .rect f.aabb

/-- Reading a circle getter. -/
noncomputable def Circle.readGetter (g : CircleGetter) (s : Lazy CircleFields) :
    CircleVal × Lazy CircleFields × ℕ :=
  read refreshCircle (circleProj g) s

theorem inv_circle_applyMut (m : CircleMut) (s : Lazy CircleFields)
    (hInv : Inv refreshCircle s) : Inv refreshCircle (Circle.applyMut m s) := by
  cases m with
  | setPosition x y => exact inv_of_dirty _ _ rfl
  | translate dx dy => exact inv_of_dirty _ _ rfl
  | setRadius r =>
    by_cases hr : r ≤ 0
    · simpa [Circle.applyMut, Circle.setRadius, hr] using hInv
    · simp only [Circle.applyMut, Circle.setRadius, if_neg hr]
      exact inv_of_dirty _ _ rfl

/-- C7 : the constructor and `setRadius` raise exactly when the radius is
not strictly positive; a throwing `setRadius` leaves the circle (its radius
and squared radius included) unchanged; a successful construction starts
with the given positive radius, and every mutator preserves positivity. -/
theorem circle_radius_strictly_positive :
    (∀ x y r : ℝ,
      (mkCircle x y r = Except.error "Circle radius must be greater than zero.") ↔ r ≤ 0)
    ∧ (∀ (s : Lazy CircleFields) (r : ℝ), r ≤ 0 → Circle.setRadius r s = (s, true))
    ∧ (∀ (x y r : ℝ) (s : Lazy CircleFields), mkCircle x y r = Except.ok s →
        s.fields.radius = r ∧ 0 < s.fields.radius)
    ∧ (∀ (s : Lazy CircleFields) (m : CircleMut), 0 < s.fields.radius →
        0 < (Circle.applyMut m s).fields.radius) := by
  refine ⟨?_, ?_, ?_, ?_⟩
  · intro x y r
    unfold mkCircle Circle.setRadius
    by_cases hr : r ≤ 0
    · simp [hr]
    · simp [hr]
  · intro s r hr
    simp [Circle.setRadius, hr]
  · intro x y r s hs
    unfold mkCircle Circle.setRadius at hs
    by_cases hr : r ≤ 0
    · simp [hr] at hs
    · simp [hr] at hs
      subst hs
      simp [refreshCircle, markDirty]
      linarith
  · intro s m hpos
    cases m with
    | setPosition x y => simpa [Circle.applyMut, Circle.setPosition, markDirty] using hpos
    | translate dx dy => simpa [Circle.applyMut, Circle.translate, markDirty] using hpos
    | setRadius r =>
      by_cases hr : r ≤ 0
      · simpa [Circle.applyMut, Circle.setRadius, hr] using hpos
      · simp [Circle.applyMut, Circle.setRadius, hr, markDirty]
        linarith

/-- C7 witness: a throwing `setRadius(0)` leaves a concrete circle
unchanged, and a unit circle construction yields radius 1 with positivity
preserved under a mutator. -/
theorem circle_radius_strictly_positive_witness :
    Circle.setRadius 0 { fields := ⟨0, 0, 1, ⟨0, 0, 0, 0⟩, 0, 0, 1⟩, isDirty := true }
        = ({ fields := ⟨0, 0, 1, ⟨0, 0, 0, 0⟩, 0, 0, 1⟩, isDirty := true }, true)
    ∧ 0 < (Circle.applyMut (CircleMut.translate 3 4)
        { fields := ⟨0, 0, 1, ⟨0, 0, 0, 0⟩, 0, 0, 1⟩, isDirty := true }).fields.radius :=
  ⟨circle_radius_strictly_positive.2.1 _ 0 (by norm_num),
   circle_radius_strictly_positive.2.2.2 _ (CircleMut.translate 3 4) (by norm_num)⟩

end MathPkg

namespace MathPkg

open LazyCache

/-- An idealized JS number: an exact real, +Infinity, -Infinity, or NaN. -/
inductive JsNum where
  | num (v : ℝ)
  | posInf
  | negInf
  | nan

open JsNum

/-- `Number.isFinite`. -/
def jsIsFinite : JsNum → Bool
  | num _ => true
  | _ => false

/-- Unary negation. -/
def jsNeg : JsNum → JsNum
  | num a => num (-a)
  | posInf => negInf
  | negInf => posInf
  | nan => nan

/-- IEEE addition on the special values, exact real addition otherwise. -/
def jsAdd : JsNum → JsNum → JsNum
  | nan, _ => nan
  | _, nan => nan
  | num a, num b => num (a + b)
  | posInf, negInf => nan
  | negInf, posInf => nan
  | posInf, _ => posInf
  | _, posInf => posInf
  | negInf, _ => negInf
  | _, negInf => negInf

/-- Subtraction, as addition of the negation. -/
def jsSub (a b : JsNum) : JsNum := jsAdd a (jsNeg b)

/-- IEEE multiplication (0 times an infinity is NaN). -/
noncomputable def jsMul : JsNum → JsNum → JsNum
  | nan, _ => nan
  | _, nan => nan
  | num a, num b => num (a * b)
  | posInf, posInf => posInf
  | posInf, negInf => negInf
  | negInf, posInf => negInf
  | negInf, negInf => posInf
  | posInf, num b => if b = 0 then nan else if 0 < b then posInf else negInf
  | num a, posInf => if a = 0 then nan else if 0 < a then posInf else negInf
  | negInf, num b => if b = 0 then nan else if 0 < b then negInf else posInf
  | num a, negInf => if a = 0 then nan else if 0 < a then negInf else posInf

/-- IEEE division (signed zeros collapsed: 0/0 is NaN, x/0 keeps x's sign). -/
noncomputable def jsDiv : JsNum → JsNum → JsNum
  | nan, _ => nan
  | _, nan => nan
  | num a, num b =>
    if b = 0 then (if a = 0 then nan else if 0 < a then posInf else negInf)
    else num (a / b)
  | posInf, num b => if 0 ≤ b then posInf else negInf
  | negInf, num b => if 0 ≤ b then negInf else posInf
  | num _, posInf => num 0
  | num _, negInf => num 0
  | posInf, _ => nan
  | negInf, _ => nan

/-- `Math.sqrt` (negative arguments give NaN). -/
noncomputable def jsSqrt : JsNum → JsNum
  | nan => nan
  | posInf => posInf
  | negInf => nan
  | num a => if a < 0 then nan else num (Real.sqrt a)

/-- JS `>`: false whenever NaN is involved. -/
def jsGt : JsNum → JsNum → Prop
  | nan, _ => False
  | _, nan => False
  | num a, num b => b < a
  | posInf, posInf => False
  | posInf, _ => True
  | negInf, _ => False
  | num _, posInf => False
  | num _, negInf => True

/-- JS `<=`: false whenever NaN is involved. -/
def jsLe : JsNum → JsNum → Prop
  | nan, _ => False
  | _, nan => False
  | num a, num b => a ≤ b
  | posInf, posInf => True
  | posInf, _ => False
  | negInf, _ => True
  | num _, posInf => True
  | num _, negInf => False

/-- JS `===` on numbers: false whenever NaN is involved. -/
def jsStrictEq : JsNum → JsNum → Prop
  | num a, num b => a = b
  | posInf, posInf => True
  | negInf, negInf => True
  | _, _ => False

/-- `Math.cos` (non-finite arguments give NaN). -/
noncomputable def jsCos : JsNum → JsNum
  | num a => num (Real.cos a)
  | _ => nan

/-- `Math.sin` (non-finite arguments give NaN). -/
noncomputable def jsSin : JsNum → JsNum
  | num a => num (Real.sin a)
  | _ => nan

/-- The math-package `Point` (over JS numbers; this claim concerns its
behaviour on non-finite scalars). -/
structure Point where
  x : JsNum
  y : JsNum

/-- `Point.multiply(scalar)`: no guard — both components are scaled
unconditionally. -/
noncomputable def Point.multiply (p : Point) (scalar : JsNum) : Point :=
  ⟨jsMul p.x scalar, jsMul p.y scalar⟩

/-- `Point.divide(scalar)`: non-finite or zero scalars are silently
rejected (`if (!Number.isFinite(scalar) || scalar === 0) return this`). -/
noncomputable def Point.divide (p : Point) (scalar : JsNum) : Point :=
  if jsIsFinite scalar = false ∨ jsStrictEq scalar (num 0) then p
  else ⟨jsDiv p.x scalar, jsDiv p.y scalar⟩

/-- The fields of the math-package `Vector`: raw components, cached length,
squared length, and the owned internal unit vector's components. -/
structure VectorF where
  x : JsNum
  y : JsNum
  length : JsNum
  squaredLength : JsNum
  unitX : JsNum
  unitY : JsNum

/-- `calculateLength`, first half: `x * x + y * y`. -/
noncomputable def calcSquaredLength (x y : JsNum) : JsNum := jsAdd (jsMul x x) (jsMul y y)

/-- `calculateLength`, second half: `Math.sqrt` of the squared length. -/
noncomputable def calcLength (x y : JsNum) : JsNum := jsSqrt (calcSquaredLength x y)

/-- `calculateUnit`: zero the unit vector when the freshly computed length
is non-finite or not positive, otherwise divide the components by it. -/
noncomputable def calcUnit (x y : JsNum) : JsNum × JsNum :=
  let len := calcLength x y
  if jsIsFinite len = false ∨ jsLe len (num 0) then (num 0, num 0)
  else (jsDiv x len, jsDiv y len)

/-- `Vector.refresh`: `calculateLength()` then `calculateUnit()`. -/
noncomputable def refreshV (f : VectorF) : VectorF :=
  { f with
    squaredLength := calcSquaredLength f.x f.y
    length := calcLength f.x f.y
    unitX := (calcUnit f.x f.y).1
    unitY := (calcUnit f.x f.y).2 }

theorem refreshV_idem (f : VectorF) : refreshV (refreshV f) = refreshV f := rfl

/-- `new Vector(x, y)`: fields initialized to 0, the sealed internal unit
vector zeroed, and `markDirty()` — nothing is computed yet. -/
def vecNew (x y : JsNum) : Lazy VectorF :=
  { fields := { x := x, y := y, length := num 0, squaredLength := num 0
                unitX := num 0, unitY := num 0 }
    isDirty := true }

/-- The `x` setter: no-op when strictly equal, otherwise set and mark dirty. -/
noncomputable def Vector.setX (v : JsNum) (s : Lazy VectorF) : Lazy VectorF :=
  if jsStrictEq s.fields.x v then s
  else markDirty { s with fields := { s.fields with x := v } }

/-- The `y` setter. -/
noncomputable def Vector.setY (v : JsNum) (s : Lazy VectorF) : Lazy VectorF :=
  if jsStrictEq s.fields.y v then s
  else markDirty { s with fields := { s.fields with y := v } }

/-- `Vector.zero()`. -/
def Vector.zero (s : Lazy VectorF) : Lazy VectorF :=
  markDirty { s with fields := { s.fields with x := num 0, y := num 0 } }

/-- `Vector.invert()` (componentwise negation). -/
def Vector.invert (s : Lazy VectorF) : Lazy VectorF :=
  markDirty { s with fields := { s.fields with x := jsNeg s.fields.x, y := jsNeg s.fields.y } }

/-- `Vector.rotateBy(radians, pivot)`: the point rotation applied to the
components. -/
noncomputable def Vector.rotateBy (r px py : JsNum) (s : Lazy VectorF) : Lazy VectorF :=
  let c := jsCos r
  let sn := jsSin r
  let sx := jsSub s.fields.x px
  let sy := jsSub s.fields.y py
  markDirty { s with fields := { s.fields with
    x := jsAdd (jsSub (jsMul sx c) (jsMul sy sn)) px
    y := jsAdd (jsAdd (jsMul sx sn) (jsMul sy c)) py } }

/-- `Vector.copyFrom(vector)` (also the `set(vector)` / `fromPoint(point)` /
`set(x, y)` / array forms: all end by writing both components and marking
dirty). -/
def Vector.setXY (a b : JsNum) (s : Lazy VectorF) : Lazy VectorF :=
  markDirty { s with fields := { s.fields with x := a, y := b } }

/-- `Vector.add` (vector / point / array / scalars forms all add the two
given numbers to the components). -/
def Vector.addXY (a b : JsNum) (s : Lazy VectorF) : Lazy VectorF :=
  markDirty { s with fields :=
    { s.fields with x := jsAdd s.fields.x a, y := jsAdd s.fields.y b } }

/-- `Vector.sub`. -/
def Vector.subXY (a b : JsNum) (s : Lazy VectorF) : Lazy VectorF :=
  markDirty { s with fields :=
    { s.fields with x := jsSub s.fields.x a, y := jsSub s.fields.y b } }

/-- `Vector.divide(scalar)`: non-finite or zero scalars are silently
rejected. -/
noncomputable def Vector.divide (k : JsNum) (s : Lazy VectorF) : Lazy VectorF :=
  if jsIsFinite k = false ∨ jsStrictEq k (num 0) then s
  else markDirty { s with fields :=
    { s.fields with x := jsDiv s.fields.x k, y := jsDiv s.fields.y k } }

/-- `Vector.multiply(scalar)`: non-finite scalars are silently rejected. -/
noncomputable def Vector.multiply (k : JsNum) (s : Lazy VectorF) : Lazy VectorF :=
  if jsIsFinite k = false then s
  else markDirty { s with fields :=
    { s.fields with x := jsMul s.fields.x k, y := jsMul s.fields.y k } }

/-- `Vector.setLength(length)`: `copyFrom(this.unit.multiply(length))` — the
`unit` getter refreshes first, the clone's `multiply` keeps the unit values
when the requested length is non-finite, and `copyFrom` writes the result
back and marks dirty. -/
noncomputable def Vector.setLength (len : JsNum) (s : Lazy VectorF) : Lazy VectorF :=
  let s1 := (ensureRefreshed refreshV s).1
  let rx := if jsIsFinite len = false then s1.fields.unitX else jsMul s1.fields.unitX len
  let ry := if jsIsFinite len = false then s1.fields.unitY else jsMul s1.fields.unitY len
  markDirty { s1 with fields := { s1.fields with x := rx, y := ry } }

/-- `Vector.limit(max)`: compares the raw cached `_squaredLength` field --
without `ensureRefreshed()` -- against `max * max` and rescales through
`divide(sqrt(_squaredLength)).multiply(max)` when it exceeds it. -/
noncomputable def Vector.limit (max : JsNum) (s : Lazy VectorF) : Lazy VectorF :=
  if jsGt s.fields.squaredLength (jsMul max max) then
    Vector.multiply max (Vector.divide (jsSqrt s.fields.squaredLength) s)
  else s

/-- `Vector.normalize()`: read the (refreshing) `length` getter, divide by
it when finite and positive. -/
noncomputable def Vector.normalize (s : Lazy VectorF) : Lazy VectorF :=
  let s1 := (ensureRefreshed refreshV s).1
  if jsIsFinite s1.fields.length = true ∧ jsGt s1.fields.length (num 0) then
    Vector.divide s1.fields.length s1
  else s1

/-- The derived-property getters of `Vector`. -/
inductive VecGetter where
  | length | squaredLength | unit

/-- Values of vector getters (the `unit` getter returns a cloned vector,
observable by its component pair). -/
inductive VecVal where
  | n (v : JsNum)
  | pair (x y : JsNum)

/-- The backing-field projection of each vector getter. -/
def vecProj : VecGetter → VectorF → VecVal
  | .length, f => .n f.length
  | .squaredLength, f => .n f.squaredLength
  | .unit, f => .pair f.unitX f.unitY

/-- Reading a vector getter. -/
noncomputable def Vector.readGetter (g : VecGetter) (s : Lazy VectorF) :
    VecVal × Lazy VectorF × ℕ :=
  read refreshV (vecProj g) s

/-- The mutators of `Vector`. -/
inductive VecMut where
  | setX (v : JsNum)
  | setY (v : JsNum)
  | zero
  | invert
  | rotateBy (r px py : JsNum)
  | setXY (a b : JsNum)
  | addXY (a b : JsNum)
  | subXY (a b : JsNum)
  | divide (k : JsNum)
  | multiply (k : JsNum)
  | setLength (len : JsNum)
  | limit (max : JsNum)
  | normalize

/-- Dispatch a vector mutator. -/
noncomputable def Vector.applyMut : VecMut → Lazy VectorF → Lazy VectorF
  | .setX v => Vector.setX v
  | .setY v => Vector.setY v
  | .zero => Vector.zero
  | .invert => Vector.invert
  | .rotateBy r px py => Vector.rotateBy r px py
  | .setXY a b => Vector.setXY a b
  | .addXY a b => Vector.addXY a b
  | .subXY a b => Vector.subXY a b
  | .divide k => Vector.divide k
  | .multiply k => Vector.multiply k
  | .setLength len => Vector.setLength len
  | .limit max => Vector.limit max
  | .normalize => Vector.normalize

/-- Every vector mutator leaves a dirty, an untouched, or a freshly
refreshed clean state, so validity is preserved. -/
theorem inv_vector_applyMut (m : VecMut) (s : Lazy VectorF) (hInv : Inv refreshV s) :
    Inv refreshV (Vector.applyMut m s) := by
  cases m with
  | setX v =>
    by_cases h : jsStrictEq s.fields.x v
    · simpa [Vector.applyMut, Vector.setX, h] using hInv
    · simp only [Vector.applyMut, Vector.setX, if_neg h]
      exact inv_of_dirty _ _ rfl
  | setY v =>
    by_cases h : jsStrictEq s.fields.y v
    · simpa [Vector.applyMut, Vector.setY, h] using hInv
    · simp only [Vector.applyMut, Vector.setY, if_neg h]
      exact inv_of_dirty _ _ rfl
  | zero => exact inv_of_dirty _ _ rfl
  | invert => exact inv_of_dirty _ _ rfl
  | rotateBy r px py => exact inv_of_dirty _ _ rfl
  | setXY a b => exact inv_of_dirty _ _ rfl
  | addXY a b => exact inv_of_dirty _ _ rfl
  | subXY a b => exact inv_of_dirty _ _ rfl
  | divide k =>
    by_cases h : jsIsFinite k = false ∨ jsStrictEq k (num 0)
    · simpa [Vector.applyMut, Vector.divide, h] using hInv
    · simp only [Vector.applyMut, Vector.divide, if_neg h]
      exact inv_of_dirty _ _ rfl
  | multiply k =>
    by_cases h : jsIsFinite k = false
    · simpa [Vector.applyMut, Vector.multiply, h] using hInv
    · simp only [Vector.applyMut, Vector.multiply, if_neg h]
      exact inv_of_dirty _ _ rfl
  | setLength len => exact inv_of_dirty _ _ rfl
  | limit max =>
    by_cases h : jsGt s.fields.squaredLength (jsMul max max)
    · simp only [Vector.applyMut, Vector.limit, if_pos h]
      by_cases h2 : jsIsFinite max = false
      · by_cases h3 : jsIsFinite (jsSqrt s.fields.squaredLength) = false
          ∨ jsStrictEq (jsSqrt s.fields.squaredLength) (num 0)
        · simpa [Vector.multiply, Vector.divide, h2, h3] using hInv
        · simp only [Vector.multiply, Vector.divide, if_neg h3, if_pos h2]
          exact inv_of_dirty _ _ rfl
      · simp only [Vector.multiply, if_neg h2]
        exact inv_of_dirty _ _ rfl
    · simpa [Vector.applyMut, Vector.limit, if_neg h] using hInv
  | normalize =>
    simp only [Vector.applyMut, Vector.normalize]
    by_cases h : jsIsFinite (ensureRefreshed refreshV s).1.fields.length = true
      ∧ jsGt (ensureRefreshed refreshV s).1.fields.length (num 0)
    · rw [if_pos h]
      by_cases h2 : jsIsFinite (ensureRefreshed refreshV s).1.fields.length = false
        ∨ jsStrictEq (ensureRefreshed refreshV s).1.fields.length (num 0)
      · simpa [Vector.divide, h2] using inv_ensure refreshV s refreshV_idem hInv
      · simp only [Vector.divide, if_neg h2]
        exact inv_of_dirty _ _ rfl
    · rw [if_neg h]
      exact inv_ensure refreshV s refreshV_idem hInv

end MathPkg

namespace MathPkg

open LazyCache JsNum

/-- C6 counterexample: `Point.multiply` has no finiteness guard, so
multiplying the point (1, 2) by NaN changes its components to NaN instead
of leaving the receiver unchanged, refuting the claim for `Point.multiply`. -/
theorem point_multiply_nan_not_rejected :
    (Point.multiply ⟨num 1, num 2⟩ nan).x = nan
    ∧ Point.multiply ⟨num 1, num 2⟩ nan ≠ (⟨num 1, num 2⟩ : Point) := by
  constructor
  · simp [Point.multiply, jsMul]
  · intro h
    have hx := congrArg Point.x h
    simp [Point.multiply, jsMul] at hx

/-- C6 amended: for every Vector and Point, `divide` with a zero or
non-finite scalar is a no-op returning the receiver, and `Vector.multiply`
with a non-finite scalar is a no-op returning the receiver; `Point.multiply`
however applies the scalar unconditionally (no guard). -/
theorem scalar_guard_amended :
    (∀ (s : Lazy VectorF) (k : JsNum),
       (jsIsFinite k = false ∨ jsStrictEq k (num 0)) → Vector.divide k s = s)
    ∧ (∀ (p : Point) (k : JsNum),
       (jsIsFinite k = false ∨ jsStrictEq k (num 0)) → Point.divide p k = p)
    ∧ (∀ (s : Lazy VectorF) (k : JsNum),
       jsIsFinite k = false → Vector.multiply k s = s) := by
  refine ⟨?_, ?_, ?_⟩
  · intro s k h
    simp [Vector.divide, h]
  · intro p k h
    simp [Point.divide, h]
  · intro s k h
    simp [Vector.multiply, h]

/-- C6 witness: concrete no-ops of the guarded mutators. -/
theorem scalar_guard_amended_witness :
    Vector.divide nan (vecNew (num 3) (num 4)) = vecNew (num 3) (num 4)
    ∧ Point.divide ⟨num 1, num 2⟩ (num 0) = (⟨num 1, num 2⟩ : Point)
    ∧ Vector.multiply posInf (vecNew (num 3) (num 4)) = vecNew (num 3) (num 4) :=
  ⟨scalar_guard_amended.1 _ nan (Or.inl rfl),
   scalar_guard_amended.2.1 _ (num 0) (Or.inr rfl),
   scalar_guard_amended.2.2 _ posInf rfl⟩

/-- C4 : the claim fails on the code.  `limit` reads the raw cached
`_squaredLength` field without `ensureRefreshed()`; on a freshly
constructed (still dirty) `new Vector(10, 0)` that cache is 0, so
`limit(5)` is a no-op and the vector's length stays 10 > 5 — the exact
scenario of the repository's own test `limit() clamps length properly`,
which expects 5.  This theorem evaluates the code on that input. -/
theorem limit_uses_stale_cached_squaredLength :
    Vector.limit (num 5) (vecNew (num 10) (num 0)) = vecNew (num 10) (num 0)
    ∧ (Vector.readGetter VecGetter.length
        (Vector.limit (num 5) (vecNew (num 10) (num 0)))).1 = VecVal.n (num 10)
    ∧ ¬ ((10:ℝ) ≤ 5) := by
  have hmul : jsMul (num 5) (num 5) = num 25 := by
    simp [jsMul]
    norm_num
  have hlim : Vector.limit (num 5) (vecNew (num 10) (num 0)) = vecNew (num 10) (num 0) := by
    rw [Vector.limit, hmul]
    rw [if_neg ?hcond]
    case hcond =>
      show ¬ jsGt (vecNew (num 10) (num 0)).fields.squaredLength (num 25)
      show ¬ jsGt (num 0) (num 25)
      simp [jsGt]
  refine ⟨hlim, ?_, by norm_num⟩
  rw [hlim]
  have h100 : calcSquaredLength (num 10) (num 0) = num 100 := by
    simp [calcSquaredLength, jsMul, jsAdd]
    norm_num
  have h10 : Real.sqrt 100 = 10 := by
    rw [show (100:ℝ) = 10 ^ 2 by norm_num, Real.sqrt_sq (by norm_num)]
  have hsqrt : calcLength (num 10) (num 0) = num 10 := by
    rw [calcLength, h100]
    simp only [jsSqrt]
    rw [if_neg (by norm_num : ¬((100:ℝ) < 0)), h10]
  rw [Vector.readGetter, read_val_dirty _ _ _ rfl]
  simp [vecProj, refreshV, vecNew, hsqrt]

/-- C5 : for every valid vector state, when both components are finite and
not both zero the `unit` getter yields a pair whose own `length` getter
reads exactly 1; when the vector is zero or has a non-finite component the
`unit` getter yields the zero vector. -/
theorem vector_unit_invariant (s : Lazy VectorF) (hInv : Inv refreshV s) :
    (∀ a b : ℝ, s.fields.x = num a → s.fields.y = num b → ¬(a = 0 ∧ b = 0) →
      ∃ u1 u2 : ℝ,
        (Vector.readGetter VecGetter.unit s).1 = VecVal.pair (num u1) (num u2)
        ∧ (Vector.readGetter VecGetter.length (vecNew (num u1) (num u2))).1
            = VecVal.n (num 1))
    ∧ ((s.fields.x = num 0 ∧ s.fields.y = num 0)
        ∨ jsIsFinite s.fields.x = false ∨ jsIsFinite s.fields.y = false →
      (Vector.readGetter VecGetter.unit s).1 = VecVal.pair (num 0) (num 0)) := by
  have hval : (Vector.readGetter VecGetter.unit s).1
      = VecVal.pair (calcUnit s.fields.x s.fields.y).1 (calcUnit s.fields.x s.fields.y).2 := by
    rw [Vector.readGetter, read_val_of_inv refreshV _ s hInv]
    simp [vecProj, refreshV]
  constructor
  · intro a b hx hy hab
    have hpos : 0 < a * a + b * b := by
      by_cases ha : a = 0
      · have hb : b ≠ 0 := fun hb => hab ⟨ha, hb⟩
        subst ha
        have := mul_self_pos.mpr hb
        nlinarith
      · have := mul_self_pos.mpr ha
        nlinarith
    have hsq : calcSquaredLength (num a) (num b) = num (a * a + b * b) := by
      simp [calcSquaredLength, jsMul, jsAdd]
    have hlen : calcLength (num a) (num b) = num (Real.sqrt (a * a + b * b)) := by
      rw [calcLength, hsq]
      simp only [jsSqrt]
      rw [if_neg (by nlinarith : ¬(a * a + b * b < 0))]
    have hL : 0 < Real.sqrt (a * a + b * b) := Real.sqrt_pos.mpr hpos
    have hLne : Real.sqrt (a * a + b * b) ≠ 0 := ne_of_gt hL
    have hunit : calcUnit (num a) (num b)
        = (num (a / Real.sqrt (a * a + b * b)), num (b / Real.sqrt (a * a + b * b))) := by
      rw [calcUnit]
      simp only [hlen]
      rw [if_neg ?hg]
      case hg =>
        simp [jsIsFinite, jsLe]
        linarith
      simp only [jsDiv]
      rw [if_neg hLne, if_neg hLne]
    refine ⟨a / Real.sqrt (a * a + b * b), b / Real.sqrt (a * a + b * b), ?_, ?_⟩
    · rw [hval, hx, hy, hunit]
    · have hsum : (a / Real.sqrt (a * a + b * b)) * (a / Real.sqrt (a * a + b * b))
          + (b / Real.sqrt (a * a + b * b)) * (b / Real.sqrt (a * a + b * b)) = 1 := by
        have hss : Real.sqrt (a * a + b * b) * Real.sqrt (a * a + b * b) = a * a + b * b :=
          Real.mul_self_sqrt (by nlinarith)
        rw [div_mul_div_comm, div_mul_div_comm, div_add_div_same, hss]
        exact div_self (by nlinarith)
      rw [Vector.readGetter, read_val_dirty _ _ _ rfl]
      simp only [vecProj, refreshV, vecNew, calcLength]
      rw [show calcSquaredLength (num (a / Real.sqrt (a * a + b * b)))
            (num (b / Real.sqrt (a * a + b * b))) = num 1 by
        simp [calcSquaredLength, jsMul, jsAdd, hsum]]
      simp only [jsSqrt]
      rw [if_neg (by norm_num : ¬((1:ℝ) < 0)), Real.sqrt_one]
  · intro hcase
    rw [hval]
    rcases hcase with ⟨hx, hy⟩ | hx | hx
    · rw [hx, hy]
      have h0 : calcLength (num 0) (num 0) = num 0 := by
        rw [calcLength]
        rw [show calcSquaredLength (num 0) (num 0) = num 0 by
          simp [calcSquaredLength, jsMul, jsAdd]]
        simp only [jsSqrt]
        rw [if_neg (by norm_num : ¬((0:ℝ) < 0)), Real.sqrt_zero]
      rw [calcUnit]
      simp only [h0]
      rw [if_pos (Or.inr (by simp [jsLe]))]
    · cases hxv : s.fields.x <;> cases hyv : s.fields.y <;>
        simp_all [calcUnit, calcLength, calcSquaredLength, jsMul, jsAdd, jsSqrt,
          jsIsFinite, jsLe]
    · cases hxv : s.fields.x <;> cases hyv : s.fields.y <;>
        simp_all [calcUnit, calcLength, calcSquaredLength, jsMul, jsAdd, jsSqrt,
          jsIsFinite, jsLe]

/-- C5 witness: the vector (3, 4) has a unit vector of length exactly 1. -/
theorem vector_unit_invariant_witness :
    ∃ u1 u2 : ℝ,
      (Vector.readGetter VecGetter.unit (vecNew (num 3) (num 4))).1
        = VecVal.pair (num u1) (num u2)
      ∧ (Vector.readGetter VecGetter.length (vecNew (num u1) (num u2))).1
          = VecVal.n (num 1) :=
  (vector_unit_invariant (vecNew (num 3) (num 4)) (inv_of_dirty _ _ rfl)).1 3 4 rfl rfl
    (by norm_num)

end MathPkg

namespace MathPkg

open LazyCache

/-- The fields of the math-package `Rect`: raw position and size, the cached
vertex array and the cached AABB.  The AABB is itself a `Rect` allocated on
first refresh (the `_aabb!` field starts unset, modeled as `none`) and
thereafter kept equal to the rectangle's position and size; its observable
values are modeled as a `Legacy.RectVal` (the inner rectangle's self-aliased
`_aabb` recursion guard makes it behave as a plain value).  Numbers are
idealized as reals, so the warn-and-return `Number.isFinite` branches of the
mutators never fire. -/
structure RectFields where
  posX : ℝ
  posY : ℝ
  width : ℝ
  height : ℝ
  vertices : List (ℝ × ℝ)
  aabb : Option Legacy.RectVal

/-- `Rect.refresh`: `calculateAABB()` (create the AABB on first use, then
copy the position and size in) followed by `calculateVertices()` (the four
corners, clockwise from the position). -/
noncomputable def refreshRect (f : RectFields) : RectFields :=
  { f with
    aabb := some ⟨f.posX, f.posY, f.width, f.height⟩
    vertices := [(f.posX, f.posY), (f.posX + f.width, f.posY),
      (f.posX + f.width, f.posY + f.height), (f.posX, f.posY + f.height)] }

theorem refreshRect_idem (f : RectFields) : refreshRect (refreshRect f) = refreshRect f := rfl

/-- `Rect.setPosition(x, y)` (and its `Point` overload): write the position
and mark dirty. -/
def Rect.setPosition (x y : ℝ) (s : Lazy RectFields) : Lazy RectFields :=
  markDirty { s with fields := { s.fields with posX := x, posY := y } }

/-- `Rect.setSize(width, height)` (and its `Size` overload): write the size
and mark dirty. -/
def Rect.setSize (w h : ℝ) (s : Lazy RectFields) : Lazy RectFields :=
  markDirty { s with fields := { s.fields with width := w, height := h } }

/-- The `Rect` constructor: `setPosition` then `setSize`, and no direct
`refresh()` call — the object is born dirty with its caches unset. -/
def mkRect (x y w h : ℝ) : Lazy RectFields :=
  Rect.setSize w h (Rect.setPosition x y
    { fields := ⟨0, 0, 0, 0, [], none⟩, isDirty := true })

/-- The mutators of `Rect`. -/
inductive RectMut where
  | setPosition (x y : ℝ)
  | setSize (w h : ℝ)

/-- Dispatch a rect mutator. -/
def Rect.applyMut : RectMut → Lazy RectFields → Lazy RectFields
  | .setPosition x y => Rect.setPosition x y
  | .setSize w h => Rect.setSize w h

/-- The getters of `Rect` (every one of them calls `ensureRefreshed()`
before returning its backing field). -/
inductive RectGetter where
  | aabb | width | height | size | position | x | y | vertices

/-- Values of rect getters. -/
inductive RectGetVal where
  | real (r : ℝ)
  | pair (a b : ℝ)
  | orect (r : Option Legacy.RectVal)
  | verts (l : List (ℝ × ℝ))

/-- The backing-field projection of each rect getter. -/
def rectProj : RectGetter → RectFields → RectGetVal
  | .aabb, f => .orect f.aabb
  | .width, f => .real f.width
  | .height, f => .real f.height
  | .size, f => .pair f.width f.height
  | .position, f => .pair f.posX f.posY
  | .x, f => .real f.posX
  | .y, f => .real f.posY
  | .vertices, f => .verts f.vertices

/-- Reading a rect getter. -/
noncomputable def Rect.readGetter (g : RectGetter) (s : Lazy RectFields) :
    RectGetVal × Lazy RectFields × ℕ :=
  read refreshRect (rectProj g) s

/-- Both rect mutators end in `markDirty()`, so validity is preserved. -/
theorem inv_rect_applyMut (m : RectMut) (s : Lazy RectFields)
    (_hInv : Inv refreshRect s) : Inv refreshRect (Rect.applyMut m s) := by
  cases m with
  | setPosition x y => exact inv_of_dirty _ _ rfl
  | setSize w h => exact inv_of_dirty _ _ rfl

end MathPkg

section

open LazyCache

/-- A concrete dirty triangle state for the lazy-cache protocol. -/
noncomputable def c1Poly : Lazy Legacy.PolyFields :=
  { fields := ⟨⟨0, 0⟩, [⟨0, 0⟩, ⟨1, 0⟩, ⟨0, 1⟩], [], ⟨0, 0⟩, ⟨0, 0, 0, 0⟩, false, 0, 0⟩
    isDirty := true }

/-- A concrete dirty circle state for the lazy-cache protocol. -/
def c1Circ : Lazy MathPkg.CircleFields :=
  { fields := ⟨0, 0, 1, ⟨0, 0, 0, 0⟩, 0, 0, 1⟩, isDirty := true }

/-- C1 : for every shape built on the lazy-cache base class — Polygon, Rect,
Circle, Line and Vector — and every valid state: after any mutator call, the
next read of any getter returns the projection of the fields fully
recomputed by that shape's `refresh` from the mutated raw state, and a
second consecutive read of the same getter with no intervening mutation
performs zero refresh computations.  `Line` exposes no mutators, so its
conjunct quantifies the two read properties over every valid state. -/
theorem lazy_cache_protocol_all_shapes :
    (∀ (s : Lazy Legacy.PolyFields) (m : Legacy.PolyMut) (g : Legacy.PolyGetter),
        Inv Legacy.refreshPoly s →
        (Legacy.Polygon.readGetter g (Legacy.Polygon.applyMut m s)).1
            = Legacy.polyProj g (Legacy.refreshPoly (Legacy.Polygon.applyMut m s).fields)
          ∧ (Legacy.Polygon.readGetter g
              (Legacy.Polygon.readGetter g (Legacy.Polygon.applyMut m s)).2.1).2.2 = 0)
  ∧ (∀ (s : Lazy MathPkg.RectFields) (m : MathPkg.RectMut) (g : MathPkg.RectGetter),
        Inv MathPkg.refreshRect s →
        (MathPkg.Rect.readGetter g (MathPkg.Rect.applyMut m s)).1
            = MathPkg.rectProj g (MathPkg.refreshRect (MathPkg.Rect.applyMut m s).fields)
          ∧ (MathPkg.Rect.readGetter g
              (MathPkg.Rect.readGetter g (MathPkg.Rect.applyMut m s)).2.1).2.2 = 0)
  ∧ (∀ (s : Lazy MathPkg.CircleFields) (m : MathPkg.CircleMut) (g : MathPkg.CircleGetter),
        Inv MathPkg.refreshCircle s →
        (MathPkg.Circle.readGetter g (MathPkg.Circle.applyMut m s)).1
            = MathPkg.circleProj g (MathPkg.refreshCircle (MathPkg.Circle.applyMut m s).fields)
          ∧ (MathPkg.Circle.readGetter g
              (MathPkg.Circle.readGetter g (MathPkg.Circle.applyMut m s)).2.1).2.2 = 0)
  ∧ (∀ (s : Lazy Legacy.LineFields) (g : Legacy.LineGetter),
        Inv Legacy.refreshLine s →
        (Legacy.Line.readGetter g s).1 = Legacy.lineProj g (Legacy.refreshLine s.fields)
          ∧ (Legacy.Line.readGetter g (Legacy.Line.readGetter g s).2.1).2.2 = 0)
  ∧ (∀ (s : Lazy MathPkg.VectorF) (m : MathPkg.VecMut) (g : MathPkg.VecGetter),
        Inv MathPkg.refreshV s →
        (MathPkg.Vector.readGetter g (MathPkg.Vector.applyMut m s)).1
            = MathPkg.vecProj g (MathPkg.refreshV (MathPkg.Vector.applyMut m s).fields)
          ∧ (MathPkg.Vector.readGetter g
              (MathPkg.Vector.readGetter g (MathPkg.Vector.applyMut m s)).2.1).2.2 = 0) := by
  refine ⟨?_, ?_, ?_, ?_, ?_⟩
  · intro s m g h
    exact ⟨read_val_of_inv _ _ _ (Legacy.inv_applyMut m s h), second_read_no_refresh _ _ _⟩
  · intro s m g h
    exact ⟨read_val_of_inv _ _ _ (MathPkg.inv_rect_applyMut m s h),
      second_read_no_refresh _ _ _⟩
  · intro s m g h
    exact ⟨read_val_of_inv _ _ _ (MathPkg.inv_circle_applyMut m s h),
      second_read_no_refresh _ _ _⟩
  · intro s g h
    exact ⟨read_val_of_inv _ _ _ h, second_read_no_refresh _ _ _⟩
  · intro s m g h
    exact ⟨read_val_of_inv _ _ _ (MathPkg.inv_vector_applyMut m s h),
      second_read_no_refresh _ _ _⟩

/-- C1 witness: the protocol instantiated for each of the five shapes at a
concrete dirty state, mutator and getter. -/
theorem lazy_cache_protocol_all_shapes_witness :
    (Inv Legacy.refreshPoly c1Poly
      ∧ ((Legacy.Polygon.readGetter .area
            (Legacy.Polygon.applyMut (.addVertex ⟨2, 2⟩) c1Poly)).1
          = Legacy.polyProj .area
              (Legacy.refreshPoly (Legacy.Polygon.applyMut (.addVertex ⟨2, 2⟩) c1Poly).fields)
        ∧ (Legacy.Polygon.readGetter .area
            (Legacy.Polygon.readGetter .area
              (Legacy.Polygon.applyMut (.addVertex ⟨2, 2⟩) c1Poly)).2.1).2.2 = 0))
  ∧ (Inv MathPkg.refreshRect (MathPkg.mkRect 1 2 3 4)
      ∧ ((MathPkg.Rect.readGetter .vertices
            (MathPkg.Rect.applyMut (.setSize 5 6) (MathPkg.mkRect 1 2 3 4))).1
          = MathPkg.rectProj .vertices
              (MathPkg.refreshRect
                (MathPkg.Rect.applyMut (.setSize 5 6) (MathPkg.mkRect 1 2 3 4)).fields)
        ∧ (MathPkg.Rect.readGetter .vertices
            (MathPkg.Rect.readGetter .vertices
              (MathPkg.Rect.applyMut (.setSize 5 6) (MathPkg.mkRect 1 2 3 4))).2.1).2.2 = 0))
  ∧ (Inv MathPkg.refreshCircle c1Circ
      ∧ ((MathPkg.Circle.readGetter .area
            (MathPkg.Circle.applyMut (.translate 1 1) c1Circ)).1
          = MathPkg.circleProj .area
              (MathPkg.refreshCircle (MathPkg.Circle.applyMut (.translate 1 1) c1Circ).fields)
        ∧ (MathPkg.Circle.readGetter .area
            (MathPkg.Circle.readGetter .area
              (MathPkg.Circle.applyMut (.translate 1 1) c1Circ)).2.1).2.2 = 0))
  ∧ (Inv Legacy.refreshLine (Legacy.mkLine ⟨0, 0⟩ ⟨3, 4⟩)
      ∧ ((Legacy.Line.readGetter .length (Legacy.mkLine ⟨0, 0⟩ ⟨3, 4⟩)).1
          = Legacy.lineProj .length (Legacy.refreshLine (Legacy.mkLine ⟨0, 0⟩ ⟨3, 4⟩).fields)
        ∧ (Legacy.Line.readGetter .length
            (Legacy.Line.readGetter .length (Legacy.mkLine ⟨0, 0⟩ ⟨3, 4⟩)).2.1).2.2 = 0))
  ∧ (Inv MathPkg.refreshV (MathPkg.vecNew (.num 3) (.num 4))
      ∧ ((MathPkg.Vector.readGetter .length
            (MathPkg.Vector.applyMut .invert (MathPkg.vecNew (.num 3) (.num 4)))).1
          = MathPkg.vecProj .length
              (MathPkg.refreshV
                (MathPkg.Vector.applyMut .invert (MathPkg.vecNew (.num 3) (.num 4))).fields)
        ∧ (MathPkg.Vector.readGetter .length
            (MathPkg.Vector.readGetter .length
              (MathPkg.Vector.applyMut .invert (MathPkg.vecNew (.num 3) (.num 4)))).2.1).2.2
            = 0)) :=
  ⟨⟨inv_of_dirty _ _ rfl,
    lazy_cache_protocol_all_shapes.1 c1Poly (.addVertex ⟨2, 2⟩) .area (inv_of_dirty _ _ rfl)⟩,
   ⟨inv_of_dirty _ _ rfl,
    lazy_cache_protocol_all_shapes.2.1 (MathPkg.mkRect 1 2 3 4) (.setSize 5 6) .vertices
      (inv_of_dirty _ _ rfl)⟩,
   ⟨inv_of_dirty _ _ rfl,
    lazy_cache_protocol_all_shapes.2.2.1 c1Circ (.translate 1 1) .area (inv_of_dirty _ _ rfl)⟩,
   ⟨inv_of_dirty _ _ rfl,
    lazy_cache_protocol_all_shapes.2.2.2.1 (Legacy.mkLine ⟨0, 0⟩ ⟨3, 4⟩) .length
      (inv_of_dirty _ _ rfl)⟩,
   ⟨inv_of_dirty _ _ rfl,
    lazy_cache_protocol_all_shapes.2.2.2.2 (MathPkg.vecNew (.num 3) (.num 4)) .invert .length
      (inv_of_dirty _ _ rfl)⟩⟩

end
